import Mathlib

/-!
# Verification of the Reclaim proof-verification and witness-consensus engine

This file gives a shallow embedding, in Lean 4, of the core of the
`reclaim-python-sdk` repository: the canonical claim-identifier hasher and
witness selector (`src/witness.py`), the signature threshold checker
(`src/utils/proof_utils.py`), and the proof verification engine
(`src/reclaim.py`, both the single-proof and the list-of-proofs variants).

External cryptographic dependencies of the source are modelled as follows:

* `Web3.keccak(text=s)` is modelled by a full executable implementation of
  Keccak-256 (the pre-SHA-3 variant with multi-rate padding byte `0x01`, as
  computed by `eth_hash` / `Web3.keccak`) applied to the UTF-8 encoding of
  `s`; its `.hex()` rendering is modelled as the unprefixed lowercase
  hexadecimal string of the 32 digest bytes.
* `eth_account.messages.encode_defunct(text=s)` is modelled as the EIP-191
  personal-message payload `0x19 ‖ "E" ‖ "thereum Signed Message:\n" ‖
  str(len(body)) ‖ body` with `body` the UTF-8 encoding of `s`.
* ECDSA public-key recovery (`w3.eth.account.recover_message`) is an
  abstract parameter `recover : List Nat → List Nat → String` taking the
  encoded message bytes and the signature bytes to the recovered address;
  every theorem about code that calls it is stated for all such functions.
* The beacon round trip (`get_witnesses_for_claim`) is an abstract
  parameter of the verification engine, returning either a witness list or
  an error, mirroring the `try`/`except` structure of the Python code.

Python `bytes` values are `List Nat` with entries below 256; Python
integers are `Int` (decimal rendering by `toString` agrees with `str`);
Python mutation of `proof.identifier` inside `verify_proof` is modelled by
returning the post-call `Proof` value alongside the boolean result.
-/

namespace Reclaim

/-! ## Keccak-256 (modelling `Web3.keccak`) -/

/-- The 64-bit all-ones mask `2^64 - 1`; Keccak lanes are 64-bit words. -/
def u64Mask : Nat := 18446744073709551615

/-- Left-rotation of a 64-bit lane by `n` places (`0 ≤ n < 64`). -/
def rotl64 (x n : Nat) : Nat :=
  ((x <<< n) &&& u64Mask) ||| (x >>> (64 - n))

/-- The 24 Keccak-f[1600] round constants (decimal renderings of the
standard iota constants `RC[0] = 0x0000000000000001` through
`RC[23] = 0x8000000080008008`). -/
def keccakRC : List Nat :=
  [1, 32898, 9223372036854808714,
   9223372039002292224, 32907, 2147483649,
   9223372039002292353, 9223372036854808585, 138,
   136, 2147516425, 2147483658,
   2147516555, 9223372036854775947, 9223372036854808713,
   9223372036854808579, 9223372036854808578, 9223372036854775936,
   32778, 9223372039002259466, 9223372039002292353,
   9223372036854808704, 2147483649, 9223372039002292232]

/-- Rho rotation offsets as five rows (row `y` holds the offsets of lanes
`(0,y) … (4,y)`). -/
def rhoRows : List (List Nat) :=
  [[0, 1, 62, 28, 27],
   [36, 44, 6, 55, 20],
   [3, 10, 43, 25, 39],
   [41, 45, 15, 21, 8],
   [18, 2, 61, 56, 14]]

/-- Rho rotation offsets, indexed by lane position `x + 5*y`. -/
def rhoOffsets : List Nat := rhoRows.flatten

/-- One Keccak-f round: theta, rho, pi, chi, iota on a 25-lane state. -/
def keccakRound (A : List Nat) (rc : Nat) : List Nat :=
  let C := (List.range 5).map (fun x =>
    A.getD x 0 ^^^ A.getD (x + 5) 0 ^^^ A.getD (x + 10) 0 ^^^
      A.getD (x + 15) 0 ^^^ A.getD (x + 20) 0)
  let D := (List.range 5).map (fun x =>
    C.getD ((x + 4) % 5) 0 ^^^ rotl64 (C.getD ((x + 1) % 5) 0) 1)
  let At := (List.range 25).map (fun i => A.getD i 0 ^^^ D.getD (i % 5) 0)
  let B := (List.range 25).foldl
    (fun acc i =>
      let x := i % 5
      let y := i / 5
      acc.set (y + 5 * ((2 * x + 3 * y) % 5)) (rotl64 (At.getD i 0) (rhoOffsets.getD i 0)))
    (List.replicate 25 0)
  let Ac := (List.range 25).map (fun i =>
    let x := i % 5
    let y := i / 5
    B.getD i 0 ^^^ ((B.getD ((x + 1) % 5 + 5 * y) 0 ^^^ u64Mask) &&& B.getD ((x + 2) % 5 + 5 * y) 0))
  Ac.set 0 (Ac.getD 0 0 ^^^ rc)

/-- The full Keccak-f[1600] permutation: 24 rounds. -/
def keccakF (A : List Nat) : List Nat :=
  keccakRC.foldl keccakRound A

/-- Multi-rate padding for rate 136 bytes with domain byte `0x01`
(legacy Keccak, as used by Ethereum). -/
def keccakPad (msg : List Nat) : List Nat :=
  let padLen := 136 - msg.length % 136
  if padLen = 1 then msg ++ [0x81]
  else msg ++ [0x01] ++ List.replicate (padLen - 2) 0 ++ [0x80]

/-- Interpret up to eight bytes as a little-endian 64-bit lane. -/
def bytesToLaneLE (bs : List Nat) : Nat :=
  bs.foldr (fun b acc => acc * 256 + b) 0

/-- Split a byte list into 136-byte blocks (structural fuel recursion;
the fuel `msg.length` always suffices because each step consumes
136 ≥ 1 bytes of a non-empty list). -/
def splitBlocksAux : Nat → List Nat → List (List Nat)
  | 0, _ => []
  | _ + 1, [] => []
  | fuel + 1, l => (l.take 136) :: splitBlocksAux fuel (l.drop 136)

/-- XOR one 136-byte block into the first 17 lanes of the state. -/
def absorbBlock (st : List Nat) (block : List Nat) : List Nat :=
  (List.range 25).map (fun i =>
    st.getD i 0 ^^^ (if i < 17 then bytesToLaneLE ((block.drop (8 * i)).take 8) else 0))

/-- Extract byte `i` of a 64-bit lane (little-endian). -/
def laneByte (lane i : Nat) : Nat := (lane >>> (8 * i)) % 256

/-- Squeeze the first 32 bytes out of the sponge state. -/
def squeeze (st : List Nat) : List Nat :=
  (List.range 32).map (fun i => laneByte (st.getD (i / 8) 0) (i % 8))

/-- Keccak-256 of a byte string: pad, absorb block-wise, squeeze 32 bytes.
This models `Web3.keccak` applied to those bytes. -/
def keccak256 (msg : List Nat) : List Nat :=
  let padded := keccakPad msg
  let blocks := splitBlocksAux padded.length padded
  squeeze (blocks.foldl (fun st b => keccakF (absorbBlock st b)) (List.replicate 25 0))

/-! ## UTF-8 encoding and hexadecimal rendering -/

/-- Standard UTF-8 encoding of a single code point. -/
def utf8EncodeChar (c : Char) : List Nat :=
  let n := c.toNat
  if n < 0x80 then [n]
  else if n < 0x800 then
    [0xC0 ||| (n >>> 6), 0x80 ||| (n &&& 0x3F)]
  else if n < 0x10000 then
    [0xE0 ||| (n >>> 12), 0x80 ||| ((n >>> 6) &&& 0x3F), 0x80 ||| (n &&& 0x3F)]
  else
    [0xF0 ||| (n >>> 18), 0x80 ||| ((n >>> 12) &&& 0x3F),
     0x80 ||| ((n >>> 6) &&& 0x3F), 0x80 ||| (n &&& 0x3F)]

/-- UTF-8 bytes of a string (models Python `s.encode()`). -/
def strBytes (s : String) : List Nat :=
  (s.data.map utf8EncodeChar).flatten

/-- Lowercase hexadecimal digit for a value below 16. -/
def hexDigitChar (n : Nat) : Char :=
  if n < 10 then Char.ofNat (48 + n) else Char.ofNat (87 + n)

/-- Unprefixed lowercase hexadecimal rendering of a byte string
(models Python `bytes.hex()`). -/
def bytesToHexString (bs : List Nat) : String :=
  String.mk ((bs.map (fun b => [hexDigitChar (b / 16), hexDigitChar (b % 16)])).flatten)

/-- ASCII lower-casing of a string (models Python `str.lower()` on the
ASCII strings appearing here). -/
def pyLower (s : String) : String := String.mk (s.data.map Char.toLower)

/-- Python `"\n".join(strs)`. -/
def pyJoinNewline : List String → String
  | [] => ""
  | [s] => s
  | s :: rest => s ++ "\n" ++ pyJoinNewline rest

/-- Python `s.replace('"', '')`: drop every double-quote character. -/
def stripQuotes (s : String) : String :=
  String.mk (s.data.filter (fun c => c ≠ '"'))

/-- Python `s.replace('0x', '')`: delete every occurrence of the two-character
pattern `0x`, scanning left to right without overlap. -/
def replace0x : List Char → List Char
  | [] => []
  | '0' :: 'x' :: rest => replace0x rest
  | c :: rest => c :: replace0x rest

/-- Value of a single hexadecimal digit character, if any. -/
def hexCharVal (c : Char) : Option Nat :=
  if 48 ≤ c.toNat ∧ c.toNat ≤ 57 then some (c.toNat - 48)
  else if 97 ≤ c.toNat ∧ c.toNat ≤ 102 then some (c.toNat - 87)
  else if 65 ≤ c.toNat ∧ c.toNat ≤ 70 then some (c.toNat - 55)
  else none

/-- Python `bytes.fromhex` on a plain hex string: pairs of hex digits;
`none` models the `ValueError` raised on an odd length or a bad digit. -/
def bytesFromHex : List Char → Option (List Nat)
  | [] => some []
  | [_] => none
  | c1 :: c2 :: rest =>
    match hexCharVal c1, hexCharVal c2, bytesFromHex rest with
    | some h, some l, some bs => some ((16 * h + l) :: bs)
    | _, _, _ => none

/-! ## Data model (from `src/utils/interfaces.py` and `src/utils/types.py`) -/

/-- `WitnessData`: one member of a beacon epoch's witness pool. -/
structure WitnessData where
  id : String
  url : String
deriving DecidableEq

/-- `ClaimInfo`: the three fields hashed into a claim identifier. -/
structure ClaimInfo where
  context : String
  provider : String
  parameters : String
deriving DecidableEq

/-- `ProviderClaimData`: the claim payload carried by a proof. -/
structure ProviderClaimData where
  provider : String
  identifier : String
  parameters : String
  owner : String
  timestampS : Int
  context : String
  epoch : Int
deriving DecidableEq

/-- `BeaconState`: an epoch's witness pool and quorum size. -/
structure BeaconState where
  witnesses : List WitnessData
  epoch : Int
  witnessesRequiredForClaim : Int
  nextEpochTimestampS : Int
deriving DecidableEq

/-- `SignedClaim`: claim data plus raw signature byte strings. -/
structure SignedClaim where
  claim : ProviderClaimData
  signatures : List (List Nat)
deriving DecidableEq

/-- `Proof`: the top-level unit submitted for verification.  `publicData`
is an opaque optional map, modelled as an association list. -/
structure Proof where
  identifier : String
  claimData : ProviderClaimData
  signatures : List String
  witnesses : List WitnessData
  publicData : Option (List (String × String)) := none
deriving DecidableEq

/-! ## `src/witness.py` -/

/-- `get_identifier_from_claim_info`: keccak the newline-join of
provider, parameters, context; render as `0x`-prefixed lowercase hex. -/
def get_identifier_from_claim_info (info : ClaimInfo) : String :=
  let s := info.provider ++ "\n" ++ info.parameters ++ "\n" ++ info.context
  let hashBytes := keccak256 (strBytes s)
  "0x" ++ pyLower (bytesToHexString hashBytes)

/-- The `Union[str, ClaimInfo]` parameter of `fetch_witness_list_for_claim`. -/
inductive ClaimParams
  | ident (s : String)
  | info (c : ClaimInfo)

/-- `identifier = params if isinstance(params, str) else
get_identifier_from_claim_info(params)`. -/
def resolveParamsIdentifier : ClaimParams → String
  | ClaimParams.ident s => s
  | ClaimParams.info c => get_identifier_from_claim_info c

/-- Big-endian unsigned integer of a byte slice
(`int.from_bytes(..., byteorder='big')`). -/
def bytesToIntBE (bs : List Nat) : Nat :=
  bs.foldl (fun a b => a * 256 + b) 0

/-- `witnesses_left[witness_index] = witnesses_left[-1]; witnesses_left.pop()`:
overwrite position `i` with the last element, then drop the last element. -/
def swapRemoveLast (pool : List WitnessData) (i : Nat) : List WitnessData :=
  match pool.getLast? with
  | some last => (pool.set i last).dropLast
  | none => []

/-- The selection loop of `fetch_witness_list_for_claim`.  `none` models the
`ZeroDivisionError` Python raises when `witnesses_left` is exhausted early
(`% len(witnesses_left)` with an empty pool). -/
def selectLoop (digest : List Nat) : Nat → List WitnessData → Nat → Option (List WitnessData)
  | 0, _, _ => some []
  | n + 1, pool, off =>
    if pool.length = 0 then none
    else
      let randomSeed := bytesToIntBE ((digest.drop off).take 4)
      let i := randomSeed % pool.length
      match pool[i]? with
      | none => none
      | some w =>
        match selectLoop digest n (swapRemoveLast pool i) ((off + 4) % digest.length) with
        | none => none
        | some rest => some (w :: rest)

/-- `fetch_witness_list_for_claim`: deterministic witness selection seeded by
the keccak of the newline-join of identifier, epoch, quorum size, timestamp. -/
def fetch_witness_list_for_claim (beaconState : BeaconState) (params : ClaimParams)
    (timestampS : Int) : Option (List WitnessData) :=
  let identifier := resolveParamsIdentifier params
  let completeInput := pyJoinNewline
    [identifier, toString beaconState.epoch,
     toString beaconState.witnessesRequiredForClaim, toString timestampS]
  let completeHash := keccak256 (strBytes completeInput)
  selectLoop completeHash beaconState.witnessesRequiredForClaim.toNat beaconState.witnesses 0

/-- `create_sign_data_for_claim`: the newline-join of identifier,
lower-cased owner, timestamp, epoch. -/
def create_sign_data_for_claim (data : ProviderClaimData) : String :=
  pyJoinNewline
    [data.identifier, pyLower data.owner, toString data.timestampS, toString data.epoch]

/-! ## `src/build/lib/src/utils/proof_utils.py` -/

/-- EIP-191 personal-message payload, modelling
`eth_account.messages.encode_defunct(text=s)` followed by the version and
header bytes that prefix the signed body: `0x19 ‖ "E" ‖
"thereum Signed Message:\n" ‖ str(len(body)) ‖ body`. -/
def encode_defunct (s : String) : List Nat :=
  let body := strBytes s
  25 :: 69 :: strBytes "thereum Signed Message:\n" ++ strBytes (toString body.length) ++ body

/-- `recover_signers_of_signed_claim`, parameterized by the ECDSA recovery
oracle `recover` (message bytes → signature bytes → address): one recovered,
lower-cased address appended per signature, in signature order. -/
def recover_signers_of_signed_claim (recover : List Nat → List Nat → String)
    (claim : SignedClaim) : List String :=
  let dataStr := create_sign_data_for_claim claim.claim
  claim.signatures.foldl
    (fun signers sig => signers ++ [pyLower (recover (encode_defunct dataStr) sig)]) []

/-- `assert_valid_signed_claim`: build the set of expected witnesses, erase
every recovered signer from it, and fail with the leftover set when it is
non-empty.  The Python function raises `ProofNotVerifiedError` whose message
joins the leftover set; the error value here is that set. -/
def assert_valid_signed_claim (recover : List Nat → List Nat → String)
    (claim : SignedClaim) (expectedWitnessAddresses : List String) :
    Except (Finset String) Unit :=
  let witnessAddresses := recover_signers_of_signed_claim recover claim
  let witnessesNotSeen := witnessAddresses.foldl
    (fun s w => s.erase w) expectedWitnessAddresses.toFinset
  if witnessesNotSeen = ∅ then Except.ok () else Except.error witnessesNotSeen

/-! ## `verify_proof` (`src/reclaim.py` and
`src/build/lib/reclaim_python_sdk/reclaim.py`) -/

/-- The external collaborators of the verification engine: the beacon round
trip `get_witnesses_for_claim(epoch, identifier, timestampS)` (an `Except`
models the exception it may raise) and the ECDSA recovery oracle. -/
structure VerifyDeps where
  getWitnesses : Int → String → Int → Except String (List String)
  recoverMessage : List Nat → List Nat → String

/-- The expected-witness determination step of `verify_proof`: the
`manual-verify` sentinel on the first hint short-circuits the beacon call. -/
def determine_witnesses (deps : VerifyDeps) (proof : Proof) : Except String (List String) :=
  match proof.witnesses with
  | w :: _ =>
    if w.url = "manual-verify" then Except.ok [w.id]
    else deps.getWitnesses proof.claimData.epoch proof.identifier proof.claimData.timestampS
  | [] => deps.getWitnesses proof.claimData.epoch proof.identifier proof.claimData.timestampS

/-- `[bytes.fromhex(sig.replace('0x', '')) for sig in proof.signatures]`;
`none` models the `ValueError` raised on a malformed signature string. -/
def decodeSigs : List String → Option (List (List Nat))
  | [] => some []
  | s :: rest =>
    match bytesFromHex (replace0x s.data), decodeSigs rest with
    | some b, some bs => some (b :: bs)
    | _, _ => none

/-- Single-proof `verify_proof`.  `Except.error ()` models the
`SignatureNotFoundError` raised to the caller; `Except.ok (b, p)` models a
normal return of boolean `b` with `p` the state of the (mutated) `Proof`
object after the call — the source overwrites `proof.identifier` with its
quote-stripped value once the witness determination step has succeeded.
Every failure inside the `try` block is caught and becomes `ok (false, _)`. -/
def verify_single (deps : VerifyDeps) (proof : Proof) : Except Unit (Bool × Proof) :=
  if proof.signatures.isEmpty then Except.error ()
  else
    match determine_witnesses deps proof with
    | Except.error _ => Except.ok (false, proof)
    | Except.ok witnesses =>
      let claimInfo : ClaimInfo :=
        { parameters := proof.claimData.parameters
          provider := proof.claimData.provider
          context := proof.claimData.context }
      let calculatedIdentifier := get_identifier_from_claim_info claimInfo
      let proofM := { proof with identifier := stripQuotes proof.identifier }
      if calculatedIdentifier ≠ proofM.identifier then Except.ok (false, proofM)
      else
        match decodeSigs proofM.signatures with
        | none => Except.ok (false, proofM)
        | some sigs =>
          let signedClaim : SignedClaim := { claim := proofM.claimData, signatures := sigs }
          match assert_valid_signed_claim deps.recoverMessage signedClaim witnesses with
          | Except.error _ => Except.ok (false, proofM)
          | Except.ok _ => Except.ok (true, proofM)

/-- List-of-proofs `verify_proof` (the `isinstance(proof, list)` branch):
verify elements in order, return `false` at the first failure, propagate a
raised `SignatureNotFoundError`. -/
def verify_list (deps : VerifyDeps) : List Proof → Except Unit Bool
  | [] => Except.ok true
  | p :: ps =>
    match verify_single deps p with
    | Except.error e => Except.error e
    | Except.ok (false, _) => Except.ok false
    | Except.ok (true, _) => verify_list deps ps

/-! ## Reference definitions taken from the spec's own words
(for refinement comparison against the embedded source) -/

/-- Spec §4.1 `identifier_of`: newline-join of provider, parameters, context,
Keccak-256 of the UTF-8 bytes, lowercase hex with `0x` in front. -/
def identifier_of_spec (provider parameters context : String) : String :=
  "0x" ++ bytesToHexString (keccak256 (strBytes (provider ++ "\n" ++ parameters ++ "\n" ++ context)))

/-- Spec §4.2 selection loop, with the offset advance written
`wrapping modulo 32` as the spec words it. -/
def selectLoopSpec (digest : List Nat) : Nat → List WitnessData → Nat → Option (List WitnessData)
  | 0, _, _ => some []
  | n + 1, pool, off =>
    if pool.length = 0 then none
    else
      let seedI := bytesToIntBE ((digest.drop off).take 4)
      let i := seedI % pool.length
      match pool[i]? with
      | none => none
      | some w =>
        match selectLoopSpec digest n (swapRemoveLast pool i) ((off + 4) % 32) with
        | none => none
        | some rest => some (w :: rest)

/-- Spec §4.2 `select_witnesses`: seed string built by `+`-concatenation as
the spec words it, then the reference selection loop. -/
def select_witnesses_spec (state : BeaconState) (identifier : String) (timestampS : Int) :
    Option (List WitnessData) :=
  let seedStr := identifier ++ "\n" ++ toString state.epoch ++ "\n" ++
    toString state.witnessesRequiredForClaim ++ "\n" ++ toString timestampS
  let digest := keccak256 (strBytes seedStr)
  selectLoopSpec digest state.witnessesRequiredForClaim.toNat state.witnesses 0

/-- The `ClaimInfo` that `verify_proof` rebuilds from the proof's claim data. -/
def claimInfoOf (proof : Proof) : ClaimInfo :=
  { parameters := proof.claimData.parameters
    provider := proof.claimData.provider
    context := proof.claimData.context }

/-- The post-call state of the proof object: `proof.identifier` overwritten
with its quote-stripped value. -/
def stripProof (proof : Proof) : Proof :=
  { proof with identifier := stripQuotes proof.identifier }

/-! ## Helper lemmas: the Keccak digest -/

theorem keccak256_length (msg : List Nat) : (keccak256 msg).length = 32 := by
  simp [keccak256, squeeze]

theorem keccak256_bytes_lt (msg : List Nat) : ∀ b ∈ keccak256 msg, b < 256 := by
  intro b hb
  simp only [keccak256, squeeze, List.mem_map, List.mem_range] at hb
  obtain ⟨i, -, rfl⟩ := hb
  exact Nat.mod_lt _ (by norm_num)

/-! ## Helper lemmas: hexadecimal rendering -/

theorem hexDigitChar_range : ∀ n < 16,
    (48 ≤ (hexDigitChar n).toNat ∧ (hexDigitChar n).toNat ≤ 57) ∨
    (97 ≤ (hexDigitChar n).toNat ∧ (hexDigitChar n).toNat ≤ 102) := by decide

theorem hexDigitChar_toLower : ∀ n < 16, Char.toLower (hexDigitChar n) = hexDigitChar n := by
  decide

theorem hexDigitChar_ne_quote : ∀ n < 16, hexDigitChar n ≠ '"' := by decide

theorem mem_bytesToHexString {bs : List Nat} {c : Char}
    (hc : c ∈ (bytesToHexString bs).data) :
    ∃ b ∈ bs, c = hexDigitChar (b / 16) ∨ c = hexDigitChar (b % 16) := by
  have h : c ∈ (bs.map (fun b => [hexDigitChar (b / 16), hexDigitChar (b % 16)])).flatten := hc
  simp only [List.mem_flatten, List.mem_map] at h
  obtain ⟨l, ⟨b, hb, rfl⟩, hcl⟩ := h
  refine ⟨b, hb, ?_⟩
  simpa using hcl

theorem bytesToHexString_length (bs : List Nat) :
    (bytesToHexString bs).length = 2 * bs.length := by
  show ((bs.map (fun b => [hexDigitChar (b / 16), hexDigitChar (b % 16)])).flatten).length
    = 2 * bs.length
  induction bs with
  | nil => rfl
  | cons b bs ih =>
    simp only [List.map_cons, List.flatten_cons, List.length_append, ih, List.length_cons,
      List.length_nil, List.length_map]
    omega

theorem pyLower_bytesToHexString (bs : List Nat) (h : ∀ b ∈ bs, b < 256) :
    pyLower (bytesToHexString bs) = bytesToHexString bs := by
  unfold pyLower
  have hpt : ∀ c ∈ (bytesToHexString bs).data, Char.toLower c = id c := by
    intro c hc
    obtain ⟨b, hb, hcase⟩ := mem_bytesToHexString hc
    have h16a : b / 16 < 16 := Nat.div_lt_of_lt_mul (by have := h b hb; omega)
    have h16b : b % 16 < 16 := Nat.mod_lt _ (by omega)
    rcases hcase with rfl | rfl
    · exact hexDigitChar_toLower _ h16a
    · exact hexDigitChar_toLower _ h16b
  rw [List.map_congr_left hpt, List.map_id]

/-! ## Helper lemmas: the claim identifier -/

theorem get_identifier_eq_spec (info : ClaimInfo) :
    get_identifier_from_claim_info info =
      identifier_of_spec info.provider info.parameters info.context := by
  show "0x" ++ pyLower (bytesToHexString (keccak256 (strBytes
      (info.provider ++ "\n" ++ info.parameters ++ "\n" ++ info.context)))) = _
  rw [pyLower_bytesToHexString _ (keccak256_bytes_lt _)]
  rfl

theorem get_identifier_length (info : ClaimInfo) :
    (get_identifier_from_claim_info info).length = 66 := by
  rw [get_identifier_eq_spec]
  unfold identifier_of_spec
  rw [String.length_append, bytesToHexString_length, keccak256_length]
  rfl

theorem get_identifier_no_quote (info : ClaimInfo) :
    '"' ∉ (get_identifier_from_claim_info info).data := by
  rw [get_identifier_eq_spec]
  unfold identifier_of_spec
  intro hmem
  rw [String.data_append] at hmem
  rcases List.mem_append.mp hmem with h0x | hhex
  · simp at h0x
  · obtain ⟨b, hb, hcase⟩ := mem_bytesToHexString hhex
    have hblt := keccak256_bytes_lt _ b hb
    have h16a : b / 16 < 16 := Nat.div_lt_of_lt_mul (by omega)
    have h16b : b % 16 < 16 := Nat.mod_lt _ (by omega)
    rcases hcase with he | he
    · exact hexDigitChar_ne_quote _ h16a he.symm
    · exact hexDigitChar_ne_quote _ h16b he.symm

theorem stripQuotes_eq_self {s : String} (h : '"' ∉ s.data) : stripQuotes s = s := by
  unfold stripQuotes
  have hfilter : s.data.filter (fun c => c ≠ '"') = s.data := by
    apply List.filter_eq_self.mpr
    intro c hc
    simp only [ne_eq, decide_not, Bool.not_eq_eq_eq_not, Bool.not_true, decide_eq_false_iff_not]
    intro he
    exact h (he ▸ hc)
  rw [hfilter]


theorem stripQuotes_get_identifier (info : ClaimInfo) :
    stripQuotes (get_identifier_from_claim_info info) = get_identifier_from_claim_info info :=
  stripQuotes_eq_self (get_identifier_no_quote info)

/-! ## Helper lemmas: signer recovery and the threshold check -/

theorem foldl_append_singleton {α β : Type} (f : α → β) :
    ∀ (l : List α) (acc : List β),
      l.foldl (fun acc s => acc ++ [f s]) acc = acc ++ l.map f := by
  intro l
  induction l with
  | nil => intro acc; simp
  | cons a l ih => intro acc; simp [ih]

theorem recover_signers_eq_map (recover : List Nat → List Nat → String) (claim : SignedClaim) :
    recover_signers_of_signed_claim recover claim =
      claim.signatures.map
        (fun sig => pyLower (recover (encode_defunct (create_sign_data_for_claim claim.claim)) sig)) := by
  unfold recover_signers_of_signed_claim
  rw [foldl_append_singleton]
  rfl

theorem foldl_erase_eq_sdiff (l : List String) (s : Finset String) :
    l.foldl (fun s w => s.erase w) s = s \ l.toFinset := by
  induction l generalizing s with
  | nil => simp
  | cons a l ih =>
    simp only [List.foldl_cons, ih, List.toFinset_cons, Finset.insert_eq]
    rw [Finset.erase_eq, sdiff_sdiff_left, Finset.sup_eq_union]

theorem assert_valid_eq (recover : List Nat → List Nat → String) (claim : SignedClaim)
    (expected : List String) :
    assert_valid_signed_claim recover claim expected =
      (if expected.toFinset \ (recover_signers_of_signed_claim recover claim).toFinset = ∅
       then Except.ok ()
       else Except.error
         (expected.toFinset \ (recover_signers_of_signed_claim recover claim).toFinset)) := by
  unfold assert_valid_signed_claim
  simp only [foldl_erase_eq_sdiff]

theorem assert_valid_ok_iff (recover : List Nat → List Nat → String) (claim : SignedClaim)
    (expected : List String) :
    assert_valid_signed_claim recover claim expected = Except.ok () ↔
      ∀ e ∈ expected, e ∈ recover_signers_of_signed_claim recover claim := by
  rw [assert_valid_eq]
  split
  next h =>
    simp only [true_iff]
    have hsub := Finset.sdiff_eq_empty_iff_subset.mp h
    intro e he
    have := hsub (List.mem_toFinset.mpr he)
    exact List.mem_toFinset.mp this
  next h =>
    simp only [reduceCtorEq, false_iff]
    intro hall
    apply h
    apply Finset.sdiff_eq_empty_iff_subset.mpr
    intro e he
    exact List.mem_toFinset.mpr (hall e (List.mem_toFinset.mp he))

theorem assert_valid_error_eq (recover : List Nat → List Nat → String) (claim : SignedClaim)
    (expected : List String) (s : Finset String)
    (h : assert_valid_signed_claim recover claim expected = Except.error s) :
    s = expected.toFinset.filter
      (fun e => e ∉ recover_signers_of_signed_claim recover claim) := by
  rw [assert_valid_eq] at h
  split at h
  next => exact absurd h (by simp)
  next =>
    have hs : s = expected.toFinset \ (recover_signers_of_signed_claim recover claim).toFinset := by
      cases h
      rfl
    rw [hs, Finset.sdiff_eq_filter]
    apply Finset.filter_congr
    intro e he
    simp

/-! ## Helper lemmas: the witness-selection loop -/

theorem swapRemoveLast_length {pool : List WitnessData} (h : pool ≠ []) (i : Nat) :
    (swapRemoveLast pool i).length = pool.length - 1 := by
  unfold swapRemoveLast
  rw [List.getLast?_eq_getLast pool h]
  simp

theorem swapRemove_perm {pool : List WitnessData} {i : Nat} (h : i < pool.length) :
    pool.Perm (pool.get ⟨i, h⟩ :: swapRemoveLast pool i) := by
  have hne : pool ≠ [] := by
    intro e
    subst e
    simp at h
  obtain ⟨A, x, rfl⟩ : ∃ A x, pool = A ++ [x] :=
    ⟨pool.dropLast, pool.getLast hne, (List.dropLast_append_getLast hne).symm⟩
  have hAlen : (A ++ [x]).length = A.length + 1 := by simp
  simp only [swapRemoveLast, List.getLast?_concat]
  by_cases hi : i < A.length
  · -- the selected element lies strictly before the last position
    have hgeti : (A ++ [x]).get ⟨i, h⟩ = A.get ⟨i, hi⟩ := List.get_append_left A [x] hi
    rw [hgeti, List.set_append_left _ _ hi, List.dropLast_concat,
      List.set_eq_take_cons_drop _ hi]
    have htake : A = A.take i ++ A.get ⟨i, hi⟩ :: A.drop (i + 1) := by
      conv_lhs => rw [← List.take_append_drop i A]
      rw [List.drop_eq_getElem_cons hi]
      rfl
    conv_lhs => rw [htake, List.append_assoc]
    exact List.perm_middle.trans
      (List.Perm.cons _ (List.Perm.append_left _ (List.perm_append_singleton _ _)))
  · -- the selected element is the last position: the swap is a no-op
    have hieq : i = A.length := by
      rw [hAlen] at h
      omega
    have hgeti : (A ++ [x]).get ⟨i, h⟩ = x := by
      rw [List.get_eq_getElem]
      exact List.getElem_concat_length A x i hieq _
    rw [hgeti, List.set_append_right _ _ (by omega), hieq]
    simp only [Nat.sub_self, List.set_cons_zero, List.dropLast_concat]
    exact List.perm_append_singleton _ _

theorem selectLoop_sound (digest : List Nat) :
    ∀ (n : Nat) (pool : List WitnessData) (off : Nat), n ≤ pool.length →
      ∃ l rest, selectLoop digest n pool off = some l ∧ l.length = n ∧
        (l ++ rest).Perm pool := by
  intro n
  induction n with
  | zero =>
    intro pool off h
    exact ⟨[], pool, rfl, rfl, List.Perm.refl _⟩
  | succ n ih =>
    intro pool off h
    have hpos : 0 < pool.length := Nat.lt_of_lt_of_le (Nat.succ_pos n) h
    have hne0 : ¬ pool.length = 0 := by omega
    have hilt : bytesToIntBE ((digest.drop off).take 4) % pool.length < pool.length :=
      Nat.mod_lt _ hpos
    have hget : pool[bytesToIntBE ((digest.drop off).take 4) % pool.length]? =
        some (pool.get ⟨bytesToIntBE ((digest.drop off).take 4) % pool.length, hilt⟩) := by
      rw [List.getElem?_eq_getElem hilt]
      rfl
    have hne : pool ≠ [] := by
      intro e
      subst e
      simp at hpos
    have hlen' : n ≤ (swapRemoveLast pool
        (bytesToIntBE ((digest.drop off).take 4) % pool.length)).length := by
      rw [swapRemoveLast_length hne]
      omega
    obtain ⟨l, rest, hsel, hlenl, hperm⟩ :=
      ih (swapRemoveLast pool (bytesToIntBE ((digest.drop off).take 4) % pool.length))
        ((off + 4) % digest.length) hlen'
    refine ⟨pool.get ⟨bytesToIntBE ((digest.drop off).take 4) % pool.length, hilt⟩ :: l,
      rest, ?_, by simp [hlenl], ?_⟩
    · simp only [selectLoop, hne0, if_false, hget, hsel]
    · exact (List.Perm.cons _ hperm).trans (swapRemove_perm hilt).symm

theorem selectLoop_eq_spec (digest : List Nat) (h32 : digest.length = 32) :
    ∀ (n : Nat) (pool : List WitnessData) (off : Nat),
      selectLoop digest n pool off = selectLoopSpec digest n pool off := by
  intro n
  induction n with
  | zero => intro pool off; rfl
  | succ n ih =>
    intro pool off
    simp only [selectLoop, selectLoopSpec, h32, ih]

theorem pyJoinNewline_four (a b c d : String) :
    pyJoinNewline [a, b, c, d] = a ++ "\n" ++ b ++ "\n" ++ c ++ "\n" ++ d := by
  simp only [pyJoinNewline, String.append_assoc]

theorem fetch_unfold (st : BeaconState) (params : ClaimParams) (ts : Int) :
    fetch_witness_list_for_claim st params ts =
      selectLoop
        (keccak256 (strBytes (pyJoinNewline
          [resolveParamsIdentifier params, toString st.epoch,
           toString st.witnessesRequiredForClaim, toString ts])))
        st.witnessesRequiredForClaim.toNat st.witnesses 0 := rfl

theorem spec_select_unfold (st : BeaconState) (identifier : String) (ts : Int) :
    select_witnesses_spec st identifier ts =
      selectLoopSpec
        (keccak256 (strBytes (identifier ++ "\n" ++ toString st.epoch ++ "\n" ++
          toString st.witnessesRequiredForClaim ++ "\n" ++ toString ts)))
        st.witnessesRequiredForClaim.toNat st.witnesses 0 := rfl

theorem fetch_witness_list_sound (st : BeaconState) (params : ClaimParams) (ts : Int)
    (h : st.witnessesRequiredForClaim.toNat ≤ st.witnesses.length) :
    ∃ l rest, fetch_witness_list_for_claim st params ts = some l ∧
      l.length = st.witnessesRequiredForClaim.toNat ∧ (l ++ rest).Perm st.witnesses := by
  rw [fetch_unfold]
  exact selectLoop_sound _ st.witnessesRequiredForClaim.toNat st.witnesses 0 h

theorem fetch_eq_spec (st : BeaconState) (identifier : String) (ts : Int) :
    fetch_witness_list_for_claim st (ClaimParams.ident identifier) ts =
      select_witnesses_spec st identifier ts := by
  rw [fetch_unfold, spec_select_unfold, pyJoinNewline_four]
  exact selectLoop_eq_spec _ (keccak256_length _) _ _ _

/-! ## Helper lemmas: the verification engine -/

theorem verify_single_empty (deps : VerifyDeps) (proof : Proof)
    (h : proof.signatures = []) :
    verify_single deps proof = Except.error () := by
  simp [verify_single, h]

theorem verify_single_beacon_error (deps : VerifyDeps) (proof : Proof) (e : String)
    (h : proof.signatures ≠ [])
    (hw : determine_witnesses deps proof = Except.error e) :
    verify_single deps proof = Except.ok (false, proof) := by
  simp [verify_single, List.isEmpty_iff, h, hw]

theorem verify_single_mismatch (deps : VerifyDeps) (proof : Proof) (ws : List String)
    (h : proof.signatures ≠ [])
    (hw : determine_witnesses deps proof = Except.ok ws)
    (hid : get_identifier_from_claim_info (claimInfoOf proof) ≠ stripQuotes proof.identifier) :
    verify_single deps proof = Except.ok (false, stripProof proof) := by
  simp [verify_single, List.isEmpty_iff, h, hw, claimInfoOf, stripProof, hid]
  exact fun h2 => absurd h2 hid

theorem verify_single_nodecode (deps : VerifyDeps) (proof : Proof) (ws : List String)
    (h : proof.signatures ≠ [])
    (hw : determine_witnesses deps proof = Except.ok ws)
    (hid : get_identifier_from_claim_info (claimInfoOf proof) = stripQuotes proof.identifier)
    (hdec : decodeSigs proof.signatures = none) :
    verify_single deps proof = Except.ok (false, stripProof proof) := by
  simp [verify_single, List.isEmpty_iff, h, hw, claimInfoOf, stripProof, hid, hdec]

theorem verify_single_threshold_fail (deps : VerifyDeps) (proof : Proof) (ws : List String)
    (sigs : List (List Nat)) (s : Finset String)
    (h : proof.signatures ≠ [])
    (hw : determine_witnesses deps proof = Except.ok ws)
    (hid : get_identifier_from_claim_info (claimInfoOf proof) = stripQuotes proof.identifier)
    (hdec : decodeSigs proof.signatures = some sigs)
    (hvalid : assert_valid_signed_claim deps.recoverMessage ⟨proof.claimData, sigs⟩ ws =
      Except.error s) :
    verify_single deps proof = Except.ok (false, stripProof proof) := by
  simp [verify_single, List.isEmpty_iff, h, hw, claimInfoOf, stripProof, hid, hdec, hvalid]

theorem verify_single_success (deps : VerifyDeps) (proof : Proof) (ws : List String)
    (sigs : List (List Nat))
    (h : proof.signatures ≠ [])
    (hw : determine_witnesses deps proof = Except.ok ws)
    (hid : get_identifier_from_claim_info (claimInfoOf proof) = stripQuotes proof.identifier)
    (hdec : decodeSigs proof.signatures = some sigs)
    (hvalid : assert_valid_signed_claim deps.recoverMessage ⟨proof.claimData, sigs⟩ ws =
      Except.ok ()) :
    verify_single deps proof = Except.ok (true, stripProof proof) := by
  simp [verify_single, List.isEmpty_iff, h, hw, claimInfoOf, stripProof, hid, hdec, hvalid]
  exact hid

theorem verify_single_total (deps : VerifyDeps) (proof : Proof)
    (h : proof.signatures ≠ []) :
    ∃ b p, verify_single deps proof = Except.ok (b, p) := by
  rcases hw : determine_witnesses deps proof with e | ws
  · exact ⟨false, proof, verify_single_beacon_error deps proof e h hw⟩
  · by_cases hid : get_identifier_from_claim_info (claimInfoOf proof) =
        stripQuotes proof.identifier
    · rcases hdec : decodeSigs proof.signatures with _ | sigs
      · exact ⟨false, stripProof proof, verify_single_nodecode deps proof ws h hw hid hdec⟩
      · rcases hvalid : assert_valid_signed_claim deps.recoverMessage
            ⟨proof.claimData, sigs⟩ ws with s | u
        · exact ⟨false, stripProof proof,
            verify_single_threshold_fail deps proof ws sigs s h hw hid hdec hvalid⟩
        · cases u
          exact ⟨true, stripProof proof,
            verify_single_success deps proof ws sigs h hw hid hdec hvalid⟩
    · exact ⟨false, stripProof proof, verify_single_mismatch deps proof ws h hw hid⟩

theorem verify_single_frame (deps : VerifyDeps) (proof : Proof) (b : Bool) (p : Proof)
    (h : verify_single deps proof = Except.ok (b, p)) :
    p = proof ∨ p = stripProof proof := by
  by_cases hsig : proof.signatures = []
  · rw [verify_single_empty deps proof hsig] at h
    cases h
  · rcases hw : determine_witnesses deps proof with e | ws
    · rw [verify_single_beacon_error deps proof e hsig hw] at h
      cases h
      exact Or.inl rfl
    · by_cases hid : get_identifier_from_claim_info (claimInfoOf proof) =
          stripQuotes proof.identifier
      · rcases hdec : decodeSigs proof.signatures with _ | sigs
        · rw [verify_single_nodecode deps proof ws hsig hw hid hdec] at h
          cases h
          exact Or.inr rfl
        · rcases hvalid : assert_valid_signed_claim deps.recoverMessage
              ⟨proof.claimData, sigs⟩ ws with s | u
          · rw [verify_single_threshold_fail deps proof ws sigs s hsig hw hid hdec hvalid] at h
            cases h
            exact Or.inr rfl
          · cases u
            rw [verify_single_success deps proof ws sigs hsig hw hid hdec hvalid] at h
            cases h
            exact Or.inr rfl
      · rw [verify_single_mismatch deps proof ws hsig hw hid] at h
        cases h
        exact Or.inr rfl

theorem determine_witnesses_manual (deps : VerifyDeps) (proof : Proof)
    (w : WitnessData) (rest : List WitnessData)
    (hw : proof.witnesses = w :: rest) (hurl : w.url = "manual-verify") :
    determine_witnesses deps proof = Except.ok [w.id] := by
  simp [determine_witnesses, hw, hurl]

theorem verify_single_beacon_independent (deps : VerifyDeps)
    (gw : Int → String → Int → Except String (List String)) (proof : Proof)
    (w : WitnessData) (rest : List WitnessData)
    (hw : proof.witnesses = w :: rest) (hurl : w.url = "manual-verify") :
    verify_single { deps with getWitnesses := gw } proof = verify_single deps proof := by
  unfold verify_single
  rw [determine_witnesses_manual { deps with getWitnesses := gw } proof w rest hw hurl,
    determine_witnesses_manual deps proof w rest hw hurl]

theorem verify_list_cons (deps : VerifyDeps) (p : Proof) (ps : List Proof) :
    verify_list deps (p :: ps) =
      match verify_single deps p with
      | Except.error e => Except.error e
      | Except.ok (false, _) => Except.ok false
      | Except.ok (true, _) => verify_list deps ps := rfl

/-! ## The claims -/

/-- C1 (counterexample): the claim promises, for every `BeaconState` with
`1 ≤ witnessesRequiredForClaim ≤ len(witnesses)`, a list of pairwise-distinct
members of `state.witnesses`.  A beacon state whose pool holds the same
witness value twice satisfies the precondition, yet the selection returns
that value twice, so the result is not pairwise distinct. -/
theorem C1_counterexample :
    ∃ l, fetch_witness_list_for_claim
        ⟨[⟨"0xa", "u"⟩, ⟨"0xa", "u"⟩], 1, 2, 0⟩ (ClaimParams.ident "0xid") 7 = some l ∧
      l.length = 2 ∧ ¬ l.Nodup := by
  obtain ⟨l, rest, hsel, hlen, hperm⟩ :=
    fetch_witness_list_sound ⟨[⟨"0xa", "u"⟩, ⟨"0xa", "u"⟩], 1, 2, 0⟩
      (ClaimParams.ident "0xid") 7 (by decide)
  simp only at hlen
  have hlen2 : l.length = 2 := hlen
  have hmem : ∀ x ∈ l, x = (⟨"0xa", "u"⟩ : WitnessData) := by
    intro x hx
    have hx2 : x ∈ ([⟨"0xa", "u"⟩, ⟨"0xa", "u"⟩] : List WitnessData) :=
      hperm.subset (List.mem_append_left rest hx)
    simpa using hx2
  obtain ⟨a, b, rfl⟩ := List.length_eq_two.mp hlen2
  have ha := hmem a (by simp)
  have hb := hmem b (by simp)
  subst ha
  subst hb
  exact ⟨_, hsel, rfl, by simp⟩

/-- C1 (amended): for every `BeaconState` with
`1 ≤ witnessesRequiredForClaim ≤ len(witnesses)`,
`fetch_witness_list_for_claim` returns (`some`) an ordered list of exactly
`witnessesRequiredForClaim` elements drawn without replacement from
`state.witnesses` — hence pairwise distinct whenever `state.witnesses`
itself has no duplicate entry — and the result coincides with the spec's
reference algorithm (Keccak-256 of the newline-joined seed, 4 digest bytes
big-endian at an offset advancing by 4 wrapping modulo 32, pick
`pool[value mod pool-size]`, remove by swapping with the last element). -/
theorem C1_select_witnesses (st : BeaconState) (identifier : String) (ts : Int)
    (h1 : 1 ≤ st.witnessesRequiredForClaim)
    (h2 : st.witnessesRequiredForClaim ≤ (st.witnesses.length : Int)) :
    ∃ l, fetch_witness_list_for_claim st (ClaimParams.ident identifier) ts = some l ∧
      l.length = st.witnessesRequiredForClaim.toNat ∧
      (∀ x ∈ l, x ∈ st.witnesses) ∧
      (st.witnesses.Nodup → l.Nodup) ∧
      fetch_witness_list_for_claim st (ClaimParams.ident identifier) ts =
        select_witnesses_spec st identifier ts := by
  obtain ⟨l, rest, hsel, hlen, hperm⟩ :=
    fetch_witness_list_sound st (ClaimParams.ident identifier) ts (Int.toNat_le.mpr h2)
  refine ⟨l, hsel, hlen, ?_, ?_, fetch_eq_spec st identifier ts⟩
  · intro x hx
    exact hperm.subset (List.mem_append_left rest hx)
  · intro hnd
    exact (hperm.symm.nodup hnd).of_append_left

/-- C1 (witness): the amended selection theorem applied to a concrete
two-witness beacon state with quorum size 1. -/
theorem C1_witness :
    ∃ l, fetch_witness_list_for_claim
        ⟨[⟨"0xa", "u"⟩, ⟨"0xb", "v"⟩], 5, 1, 0⟩ (ClaimParams.ident "0xid") 7 = some l ∧
      l.length = (1 : Int).toNat ∧
      (∀ x ∈ l, x ∈ ([⟨"0xa", "u"⟩, ⟨"0xb", "v"⟩] : List WitnessData)) ∧
      (([⟨"0xa", "u"⟩, ⟨"0xb", "v"⟩] : List WitnessData).Nodup → l.Nodup) ∧
      fetch_witness_list_for_claim
          ⟨[⟨"0xa", "u"⟩, ⟨"0xb", "v"⟩], 5, 1, 0⟩ (ClaimParams.ident "0xid") 7 =
        select_witnesses_spec ⟨[⟨"0xa", "u"⟩, ⟨"0xb", "v"⟩], 5, 1, 0⟩ "0xid" 7 :=
  C1_select_witnesses ⟨[⟨"0xa", "u"⟩, ⟨"0xb", "v"⟩], 5, 1, 0⟩ "0xid" 7
    (by decide) (by decide)

/-- C2: `get_identifier_from_claim_info` equals the spec's canonical hasher —
`0x` followed by the unprefixed lowercase hexadecimal rendering of the
Keccak-256 digest of the UTF-8 bytes of `provider\nparameters\ncontext`,
the three fields used verbatim — and its output is `0x` plus exactly 64
lowercase hexadecimal characters.  (As a Lean function it is by
construction a pure function of the three fields.) -/
theorem C2_get_identifier (info : ClaimInfo) :
    get_identifier_from_claim_info info =
      identifier_of_spec info.provider info.parameters info.context
    ∧ ∃ hexPart : String,
        get_identifier_from_claim_info info = "0x" ++ hexPart ∧
        hexPart.length = 64 ∧
        ∀ c ∈ hexPart.data,
          (48 ≤ c.toNat ∧ c.toNat ≤ 57) ∨ (97 ≤ c.toNat ∧ c.toNat ≤ 102) := by
  refine ⟨get_identifier_eq_spec info,
    bytesToHexString (keccak256 (strBytes
      (info.provider ++ "\n" ++ info.parameters ++ "\n" ++ info.context))), ?_, ?_, ?_⟩
  · rw [get_identifier_eq_spec info]
    rfl
  · rw [bytesToHexString_length, keccak256_length]
  · intro c hc
    obtain ⟨b, hb, hcase⟩ := mem_bytesToHexString hc
    have hblt := keccak256_bytes_lt _ b hb
    have h16a : b / 16 < 16 := Nat.div_lt_of_lt_mul (by omega)
    have h16b : b % 16 < 16 := Nat.mod_lt _ (by omega)
    rcases hcase with rfl | rfl
    · exact hexDigitChar_range _ h16a
    · exact hexDigitChar_range _ h16b

/-- C2 (witness): the identifier of a concrete claim-info triple agrees with
the spec-side canonical hasher at that input. -/
theorem C2_witness :
    get_identifier_from_claim_info ⟨"c", "p", "q"⟩ = identifier_of_spec "p" "q" "c" :=
  (C2_get_identifier ⟨"c", "p", "q"⟩).1

/-- C3: `assert_valid_signed_claim` succeeds (returns without raising) if and
only if every expected witness address occurs among the addresses recovered
from the claim's signatures; recovered addresses outside the expected set
never cause failure, and on failure the error names exactly the expected
addresses with no matching recovered signer. -/
theorem C3_assert_valid (recover : List Nat → List Nat → String)
    (claim : SignedClaim) (expected : List String) :
    (assert_valid_signed_claim recover claim expected = Except.ok () ↔
       ∀ e ∈ expected, e ∈ recover_signers_of_signed_claim recover claim)
    ∧ ∀ s, assert_valid_signed_claim recover claim expected = Except.error s →
        s = expected.toFinset.filter
          (fun e => e ∉ recover_signers_of_signed_claim recover claim) :=
  ⟨assert_valid_ok_iff recover claim expected,
   fun s h => assert_valid_error_eq recover claim expected s h⟩

/-- C3 (witness): with a recovery oracle returning `0xAB` for the single
signature, the expected set `{0xab}` is matched (lower-casing applied) and
the check passes. -/
theorem C3_witness :
    assert_valid_signed_claim (fun _ _ => "0xAB")
      ⟨⟨"p", "i", "par", "OWN", 3, "c", 4⟩, [[1]]⟩ ["0xab"] = Except.ok () :=
  (C3_assert_valid (fun _ _ => "0xAB")
    ⟨⟨"p", "i", "par", "OWN", 3, "c", 4⟩, [[1]]⟩ ["0xab"]).1.mpr (by decide)

/-- C4: single-proof `verify` raises its explicit error (the modelled
`SignatureNotFoundError`) exactly when `proof.signatures` is empty, whatever
the external collaborators do; with a non-empty signature list every other
failure inside the verification is caught and converted into a boolean
return, so the call always returns `ok` — no other exception escapes. -/
theorem C4_raise_iff_no_signatures (deps : VerifyDeps) (proof : Proof) :
    (verify_single deps proof = Except.error () ↔ proof.signatures = [])
    ∧ (proof.signatures ≠ [] → ∃ b p, verify_single deps proof = Except.ok (b, p)) := by
  constructor
  · constructor
    · intro he
      by_contra hne
      obtain ⟨b, p, hbp⟩ := verify_single_total deps proof hne
      rw [hbp] at he
      cases he
    · intro h
      exact verify_single_empty deps proof h
  · exact verify_single_total deps proof

/-- C4 (witness): a proof with an empty signature list makes `verify` raise,
even though the beacon collaborator would fail and every other step would
also fail. -/
theorem C4_witness :
    verify_single ⟨fun _ _ _ => Except.error "down", fun _ _ => ""⟩
      ⟨"0xid", ⟨"p", "i", "q", "o", 1, "c", 2⟩, [], [], none⟩ = Except.error () :=
  (C4_raise_iff_no_signatures ⟨fun _ _ _ => Except.error "down", fun _ _ => ""⟩
    ⟨"0xid", ⟨"p", "i", "q", "o", 1, "c", 2⟩, [], [], none⟩).1.mpr rfl

/-- C5: during single-proof verification the claim identifier is recomputed
from the claim data's provider, parameters and context by the canonical
hasher and compared, for exact string equality, against the quote-stripped
`proof.identifier`; whenever the two differ (and the expected-witness step
succeeded) `verify` returns `false` — the internal error is converted to a
boolean. -/
theorem C5_identifier_mismatch (deps : VerifyDeps) (proof : Proof)
    (h1 : proof.signatures ≠ [])
    (h3 : get_identifier_from_claim_info
        ⟨proof.claimData.context, proof.claimData.provider, proof.claimData.parameters⟩ ≠
      stripQuotes proof.identifier) :
    ∃ p, verify_single deps proof = Except.ok (false, p) := by
  rcases hw : determine_witnesses deps proof with e | ws
  · exact ⟨proof, verify_single_beacon_error deps proof e h1 hw⟩
  · exact ⟨stripProof proof, verify_single_mismatch deps proof ws h1 hw h3⟩

/-- C5 (witness): a concrete proof whose identifier `zzz` cannot equal the
recomputed 66-character hash verifies to `false` (not an exception). -/
theorem C5_witness :
    ∃ p, verify_single ⟨fun _ _ _ => Except.ok [], fun _ _ => ""⟩
      ⟨"zzz", ⟨"p", "i", "q", "o", 1, "c", 2⟩, ["00"], [], none⟩ =
      Except.ok (false, p) :=
  C5_identifier_mismatch ⟨fun _ _ _ => Except.ok [], fun _ _ => ""⟩
    ⟨"zzz", ⟨"p", "i", "q", "o", 1, "c", 2⟩, ["00"], [], none⟩
    (by simp)
    (by
      intro heq
      have hl := congrArg String.length heq
      rw [get_identifier_length] at hl
      have h3 : (stripQuotes "zzz").length = 3 := rfl
      rw [h3] at hl
      exact absurd hl (by decide))

/-- C6: when `proof.witnesses` is non-empty and its first element's url is
the sentinel `manual-verify`, the expected witness set is exactly the first
hint's id, the verification result does not depend on the beacon
collaborator at all, and a proof whose identifier matches the recomputed
hash, whose signatures decode, and one of whose signatures recovers
(lower-cased) to that id verifies to `true`. -/
theorem C6_manual_verify (deps : VerifyDeps)
    (gw : Int → String → Int → Except String (List String))
    (proof : Proof) (w : WitnessData) (rest : List WitnessData)
    (hw : proof.witnesses = w :: rest) (hurl : w.url = "manual-verify")
    (hsig : proof.signatures ≠ []) :
    determine_witnesses deps proof = Except.ok [w.id]
    ∧ verify_single { deps with getWitnesses := gw } proof = verify_single deps proof
    ∧ ∀ sigs, get_identifier_from_claim_info
          ⟨proof.claimData.context, proof.claimData.provider, proof.claimData.parameters⟩ =
        stripQuotes proof.identifier →
      decodeSigs proof.signatures = some sigs →
      w.id ∈ recover_signers_of_signed_claim deps.recoverMessage ⟨proof.claimData, sigs⟩ →
      verify_single deps proof = Except.ok (true, stripProof proof) := by
  refine ⟨determine_witnesses_manual deps proof w rest hw hurl,
    verify_single_beacon_independent deps gw proof w rest hw hurl,
    fun sigs hid hdec hmem => ?_⟩
  apply verify_single_success deps proof [w.id] sigs hsig
    (determine_witnesses_manual deps proof w rest hw hurl) hid hdec
  apply (assert_valid_ok_iff deps.recoverMessage ⟨proof.claimData, sigs⟩ [w.id]).mpr
  intro e he
  rw [List.mem_singleton.mp he]
  exact hmem

/-- C6 (witness): a concrete manual-verify proof with correct identifier and
a signature recovering to the hinted id verifies to `true`, under a beacon
collaborator that always fails (so no beacon interaction can have
contributed). -/
theorem C6_witness :
    verify_single ⟨fun _ _ _ => Except.error "down", fun _ _ => "0xW"⟩
      ⟨get_identifier_from_claim_info ⟨"c", "p", "q"⟩, ⟨"p", "idf", "q", "o", 1, "c", 2⟩,
        ["00"], [⟨"0xw", "manual-verify"⟩], none⟩ =
      Except.ok (true, stripProof
        ⟨get_identifier_from_claim_info ⟨"c", "p", "q"⟩, ⟨"p", "idf", "q", "o", 1, "c", 2⟩,
          ["00"], [⟨"0xw", "manual-verify"⟩], none⟩) :=
  (C6_manual_verify ⟨fun _ _ _ => Except.error "down", fun _ _ => "0xW"⟩
      (fun _ _ _ => Except.ok [])
      ⟨get_identifier_from_claim_info ⟨"c", "p", "q"⟩, ⟨"p", "idf", "q", "o", 1, "c", 2⟩,
        ["00"], [⟨"0xw", "manual-verify"⟩], none⟩
      ⟨"0xw", "manual-verify"⟩ [] rfl rfl (by simp)).2.2
    [[0]] (stripQuotes_get_identifier ⟨"c", "p", "q"⟩).symm rfl (by decide)

/-- C7: signer recovery builds the signed message as the newline-join of
identifier, lower-cased owner, decimal timestamp and decimal epoch, applies
the EIP-191 personal-message encoding before handing the bytes to the ECDSA
recovery oracle, recovers exactly one address per signature in signature
order, and lower-cases every recovered address. -/
theorem C7_recover_signers (recover : List Nat → List Nat → String) (claim : SignedClaim) :
    recover_signers_of_signed_claim recover claim =
      claim.signatures.map
        (fun sig => pyLower (recover (encode_defunct (create_sign_data_for_claim claim.claim)) sig))
    ∧ create_sign_data_for_claim claim.claim =
        claim.claim.identifier ++ "\n" ++ pyLower claim.claim.owner ++ "\n" ++
          toString claim.claim.timestampS ++ "\n" ++ toString claim.claim.epoch
    ∧ (recover_signers_of_signed_claim recover claim).length = claim.signatures.length := by
  refine ⟨recover_signers_eq_map recover claim, ?_, ?_⟩
  · unfold create_sign_data_for_claim
    exact pyJoinNewline_four _ _ _ _
  · rw [recover_signers_eq_map recover claim, List.length_map]

/-- C8: list-input `verify` returns `true` if and only if every element
individually verifies to `true`; elements are examined in list order and
verification stops at the first element that does not verify to `true` —
the overall result is the same no matter what follows that element — and
the boolean result carries no index information. -/
theorem C8_verify_list_all (deps : VerifyDeps) :
    (∀ ps : List Proof, verify_list deps ps = Except.ok true ↔
       ∀ p ∈ ps, ∃ q, verify_single deps p = Except.ok (true, q))
    ∧ ∀ (l1 : List Proof) (p : Proof) (l2 l2' : List Proof),
        (∀ q ∈ l1, ∃ r, verify_single deps q = Except.ok (true, r)) →
        (∀ r, verify_single deps p ≠ Except.ok (true, r)) →
        verify_list deps (l1 ++ p :: l2) = verify_list deps (l1 ++ p :: l2') := by
  constructor
  · intro ps
    induction ps with
    | nil => simp [verify_list]
    | cons p ps ih =>
      constructor
      · intro hok q hq
        rcases hv : verify_single deps p with e | ⟨b, r⟩
        · rw [verify_list_cons, hv] at hok
          cases hok
        · cases b
          · rw [verify_list_cons, hv] at hok
            simp at hok
          · rw [verify_list_cons, hv] at hok
            rcases List.mem_cons.mp hq with rfl | hq2
            · exact ⟨r, hv⟩
            · exact ih.mp hok q hq2
      · intro hall
        obtain ⟨r, hv⟩ := hall p (List.mem_cons_self p ps)
        rw [verify_list_cons, hv]
        exact ih.mpr (fun q hq => hall q (List.mem_cons_of_mem p hq))
  · intro l1
    induction l1 with
    | nil =>
      intro p l2 l2' _ hp
      rcases hv : verify_single deps p with e | ⟨b, r⟩
      · rw [List.nil_append, List.nil_append, verify_list_cons, verify_list_cons, hv]
      · cases b
        · rw [List.nil_append, List.nil_append, verify_list_cons, verify_list_cons, hv]
        · exact absurd hv (hp r)
    | cons q l1 ih =>
      intro p l2 l2' hall hp
      obtain ⟨r, hv⟩ := hall q (List.mem_cons_self q l1)
      rw [List.cons_append, List.cons_append, verify_list_cons, verify_list_cons, hv]
      exact ih p l2 l2' (fun q2 hq2 => hall q2 (List.mem_cons_of_mem q hq2)) hp

/-- C8 (witness): with the first element raising out of a batch, the result
does not depend on the later elements — verifying `[bad, x]` and `[bad, y]`
gives the same outcome for different `x`, `y`, so index 1 is never
examined. -/
theorem C8_witness :
    verify_list ⟨fun _ _ _ => Except.ok [], fun _ _ => ""⟩
      [⟨"0xid", ⟨"p", "i", "q", "o", 1, "c", 2⟩, [], [], none⟩,
       ⟨"0xa", ⟨"p", "i", "q", "o", 1, "c", 2⟩, ["00"], [], none⟩] =
    verify_list ⟨fun _ _ _ => Except.ok [], fun _ _ => ""⟩
      [⟨"0xid", ⟨"p", "i", "q", "o", 1, "c", 2⟩, [], [], none⟩,
       ⟨"0xb", ⟨"p", "i", "q", "o", 1, "c", 2⟩, ["11"], [], none⟩] :=
  (C8_verify_list_all ⟨fun _ _ _ => Except.ok [], fun _ _ => ""⟩).2
    [] ⟨"0xid", ⟨"p", "i", "q", "o", 1, "c", 2⟩, [], [], none⟩
    [⟨"0xa", ⟨"p", "i", "q", "o", 1, "c", 2⟩, ["00"], [], none⟩]
    [⟨"0xb", ⟨"p", "i", "q", "o", 1, "c", 2⟩, ["11"], [], none⟩]
    (by simp)
    (fun r h => by
      rw [verify_single_empty _ _ rfl] at h
      cases h)

/-- C9 (counterexample): the claim says every field of the proof, including
`proof.identifier`, is unchanged after `verify` returns.  On a proof whose
identifier contains double-quote characters, `verify` overwrites
`proof.identifier` with its quote-stripped value: the returned object state
differs from the input. -/
theorem C9_counterexample :
    verify_single ⟨fun _ _ _ => Except.error "down", fun _ _ => ""⟩
      ⟨"\"zz\"", ⟨"p", "i", "q", "o", 1, "c", 2⟩, ["00"], [⟨"0xw", "manual-verify"⟩], none⟩ =
      Except.ok (false,
        ⟨"zz", ⟨"p", "i", "q", "o", 1, "c", 2⟩, ["00"], [⟨"0xw", "manual-verify"⟩], none⟩)
    ∧ ("zz" : String) ≠ "\"zz\"" := by
  constructor
  · have h := verify_single_mismatch ⟨fun _ _ _ => Except.error "down", fun _ _ => ""⟩
      ⟨"\"zz\"", ⟨"p", "i", "q", "o", 1, "c", 2⟩, ["00"], [⟨"0xw", "manual-verify"⟩], none⟩
      ["0xw"] (by simp) rfl
      (by
        intro heq
        have hl := congrArg String.length heq
        rw [get_identifier_length] at hl
        have h2 : (stripQuotes "\"zz\"").length = 2 := rfl
        rw [h2] at hl
        exact absurd hl (by decide))
    exact h
  · decide

/-- C9 (amended): apart from the beacon round trip, single-proof `verify`
leaves every field of the proof object unchanged except `identifier`, which
is either untouched (when the expected-witness step fails) or replaced by
its quote-stripped value; in particular, whenever the input identifier
contains no double-quote character the proof object is returned entirely
unchanged. -/
theorem C9_frame (deps : VerifyDeps) (proof : Proof) (b : Bool) (p : Proof)
    (h : verify_single deps proof = Except.ok (b, p)) :
    p.claimData = proof.claimData ∧ p.signatures = proof.signatures ∧
    p.witnesses = proof.witnesses ∧ p.publicData = proof.publicData ∧
    (p.identifier = proof.identifier ∨ p.identifier = stripQuotes proof.identifier) ∧
    ('"' ∉ proof.identifier.data → p = proof) := by
  rcases verify_single_frame deps proof b p h with rfl | rfl
  · exact ⟨rfl, rfl, rfl, rfl, Or.inl rfl, fun _ => rfl⟩
  · refine ⟨rfl, rfl, rfl, rfl, Or.inr rfl, fun hq => ?_⟩
    show { proof with identifier := stripQuotes proof.identifier } = proof
    rw [stripQuotes_eq_self hq]

/-- C9 (witness): a verification whose witness-determination step fails
returns `false` with the proof object unchanged, and the frame conditions
hold at that concrete call. -/
theorem C9_witness :
    (⟨"0xid", ⟨"p", "i", "q", "o", 1, "c", 2⟩, ["00"], [], none⟩ : Proof).claimData =
        (⟨"0xid", ⟨"p", "i", "q", "o", 1, "c", 2⟩, ["00"], [], none⟩ : Proof).claimData
    ∧ (⟨"0xid", ⟨"p", "i", "q", "o", 1, "c", 2⟩, ["00"], [], none⟩ : Proof).signatures =
        (⟨"0xid", ⟨"p", "i", "q", "o", 1, "c", 2⟩, ["00"], [], none⟩ : Proof).signatures
    ∧ (⟨"0xid", ⟨"p", "i", "q", "o", 1, "c", 2⟩, ["00"], [], none⟩ : Proof).witnesses =
        (⟨"0xid", ⟨"p", "i", "q", "o", 1, "c", 2⟩, ["00"], [], none⟩ : Proof).witnesses
    ∧ (⟨"0xid", ⟨"p", "i", "q", "o", 1, "c", 2⟩, ["00"], [], none⟩ : Proof).publicData =
        (⟨"0xid", ⟨"p", "i", "q", "o", 1, "c", 2⟩, ["00"], [], none⟩ : Proof).publicData
    ∧ ((⟨"0xid", ⟨"p", "i", "q", "o", 1, "c", 2⟩, ["00"], [], none⟩ : Proof).identifier =
        (⟨"0xid", ⟨"p", "i", "q", "o", 1, "c", 2⟩, ["00"], [], none⟩ : Proof).identifier ∨
       (⟨"0xid", ⟨"p", "i", "q", "o", 1, "c", 2⟩, ["00"], [], none⟩ : Proof).identifier =
        stripQuotes (⟨"0xid", ⟨"p", "i", "q", "o", 1, "c", 2⟩, ["00"], [], none⟩ : Proof).identifier)
    ∧ ('"' ∉ (⟨"0xid", ⟨"p", "i", "q", "o", 1, "c", 2⟩, ["00"], [], none⟩ : Proof).identifier.data →
        (⟨"0xid", ⟨"p", "i", "q", "o", 1, "c", 2⟩, ["00"], [], none⟩ : Proof) =
        ⟨"0xid", ⟨"p", "i", "q", "o", 1, "c", 2⟩, ["00"], [], none⟩) :=
  C9_frame ⟨fun _ _ _ => Except.error "down", fun _ _ => ""⟩
    ⟨"0xid", ⟨"p", "i", "q", "o", 1, "c", 2⟩, ["00"], [], none⟩ false
    ⟨"0xid", ⟨"p", "i", "q", "o", 1, "c", 2⟩, ["00"], [], none⟩ rfl

/-- C10: list-input `verify` applied to the empty list returns `true`
vacuously, for every behaviour of the external collaborators — so no beacon
call is made, no error is raised, and the empty-signatures precondition of
single proofs is never consulted. -/
theorem C10_verify_empty_list (deps : VerifyDeps) :
    verify_list deps [] = Except.ok true := rfl

end Reclaim
